import Mathlib

/-!
Verification of the snowflake ID generator (jiruffe/snowflake, C edition).

The development shallowly embeds src/c/snowflake.c and src/c/snowflake.h:
machine integers become `Nat` with an explicit `% 2 ^ 64` where uint64
overflow matters, the pthread mutex becomes an explicit trace of mutex
actions, and `gettimeofday` readings become explicit inputs.  The parts of
the generator algorithm whose bodies are unfinished in the C source
(`snowflake_next_id` is an empty critical section and
`snwoflake_get_next_millisecond` has an empty body) are modelled from the
specification, as marked on each such definition.
-/

set_option maxRecDepth 100000

/-! ## Constants, from src/c/snowflake.c -/

/-- `SNOWFLAKE_EPOCH`: 2020-01-01 00:00:00 GMT in milliseconds since the UNIX epoch. -/
def SNOWFLAKE_EPOCH : Nat := 1577836800000

/-- Bit allocation for the unused sign bit. -/
def SNOWFLAKE_UNUSED_BITS : Nat := 1

/-- Bit allocation for the timestamp offset. -/
def SNOWFLAKE_TIMESTAMP_BITS : Nat := 41

/-- Bit allocation for the data center id. -/
def SNOWFLAKE_DATA_CENTER_ID_BITS : Nat := 5

/-- Bit allocation for the machine id. -/
def SNOWFLAKE_MACHINE_ID_BITS : Nat := 5

/-- Bit allocation for the per-millisecond sequence. -/
def SNOWFLAKE_SEQUENCE_BITS : Nat := 12

/-- `UINT_FAST64_MAX` as a natural number. -/
def UINT_FAST64_MAX : Nat := 2 ^ 64 - 1

/-- Bitwise complement within 64 bits: `~x` in C on `uint_fast64_t` is xor
with all ones after truncating the operand to 64 bits. -/
def uint64_not (x : Nat) : Nat := UINT_FAST64_MAX ^^^ (x % 2 ^ 64)

/-- `SNOWFLAKE_MAX_DATA_CENTER_ID = ~(UINT_FAST64_MAX << SNOWFLAKE_DATA_CENTER_ID_BITS)`. -/
def SNOWFLAKE_MAX_DATA_CENTER_ID : Nat :=
  uint64_not (UINT_FAST64_MAX <<< SNOWFLAKE_DATA_CENTER_ID_BITS)

/-- `SNOWFLAKE_MAX_MACHINE_ID = ~(UINT_FAST64_MAX << SNOWFLAKE_MACHINE_ID_BITS)`. -/
def SNOWFLAKE_MAX_MACHINE_ID : Nat :=
  uint64_not (UINT_FAST64_MAX <<< SNOWFLAKE_MACHINE_ID_BITS)

/-- `SNOWFLAKE_MAX_SEQUENCE = ~(UINT_FAST64_MAX << SNOWFLAKE_SEQUENCE_BITS)`. -/
def SNOWFLAKE_MAX_SEQUENCE : Nat :=
  uint64_not (UINT_FAST64_MAX <<< SNOWFLAKE_SEQUENCE_BITS)

/-- Modelled from the spec: the shift macros in snowflake.c (lines 77-90) expand to
expressions over identifiers without the `SNOWFLAKE_` prefix (`SEQUENCE_BITS` and
friends), which are defined nowhere, and the macros are never expanded in the
source; the spec gives `machine_shift = sequence_bits`. -/
def SNOWFLAKE_MACHINE_ID_SHIFT : Nat := SNOWFLAKE_SEQUENCE_BITS

/-- Modelled from the spec: `data_center_shift = sequence_bits + machine_bits`
(the corresponding macro in snowflake.c refers to undefined identifiers). -/
def SNOWFLAKE_DATA_CENTER_ID_SHIFT : Nat :=
  SNOWFLAKE_SEQUENCE_BITS + SNOWFLAKE_MACHINE_ID_BITS

/-- Modelled from the spec: `timestamp_shift = data_center_shift + data_center_bits`
(the corresponding macro in snowflake.c refers to undefined identifiers). -/
def SNOWFLAKE_TIMESTAMP_SHIFT : Nat :=
  SNOWFLAKE_DATA_CENTER_ID_SHIFT + SNOWFLAKE_DATA_CENTER_ID_BITS

/-! ## Data model, from src/c/snowflake.h -/

/-- The four data fields of `snowflake_t` (the `pthread_mutex_t *` handle is
modelled separately, as the trace of mutex actions a call performs). -/
structure snowflake_t where
  data_center_id : Nat
  machine_id : Nat
  sequence : Nat
  last_timestamp : Nat
deriving DecidableEq, Repr

/-- A mutex operation performed on the generator's `pthread_mutex_t`. -/
inductive MutexAction where
  | lock
  | unlock
deriving DecidableEq, Repr

/-! ## Functions with complete bodies in src/c/snowflake.c -/

/-- `snowflake_construct`, as written: stores both arguments verbatim,
zeroes `sequence` and `last_timestamp`, and allocates the mutex.  It takes
no epoch argument, performs no range validation and cannot fail. -/
def snowflake_construct (data_center_id machine_id : Nat) : snowflake_t :=
  { data_center_id := data_center_id
    machine_id := machine_id
    sequence := 0
    last_timestamp := 0 }

/-- `snowflake_next_id`, as written in src/c/snowflake.c (lines 123-130): the
body locks the mutex and immediately unlocks it, mutating no field and
computing no ID.  The embedding returns the generator state the call leaves
behind together with the trace of mutex actions it performed. -/
def snowflake_next_id (snowflake : snowflake_t) : snowflake_t × List MutexAction :=
  (snowflake, [MutexAction.lock, MutexAction.unlock])

/-- `snowflake_get_timestamp`, as written: converts a `gettimeofday` reading
of `tv_sec` seconds and `tv_usec` microseconds (both already cast to
`uint_fast64_t`, hence given here as naturals below `2 ^ 64`) to milliseconds,
in 64-bit unsigned arithmetic with truncating division. -/
def snowflake_get_timestamp (tv_sec tv_usec : Nat) : Nat :=
  (tv_sec * 1000 + tv_usec / 1000) % 2 ^ 64

/-! ## Bit-layout codec, modelled from the spec -/

/-- Modelled from the spec: no encode function exists in the C source (the
unfinished `snowflake_next_id` never builds an ID); section 4.1 defines the
result as the or of each field shifted to its position. -/
def snowflake_encode (timestamp_offset data_center_id machine_id seq : Nat) : Nat :=
  (timestamp_offset <<< SNOWFLAKE_TIMESTAMP_SHIFT) |||
  (data_center_id <<< SNOWFLAKE_DATA_CENTER_ID_SHIFT) |||
  (machine_id <<< SNOWFLAKE_MACHINE_ID_SHIFT) |||
  seq

/-- Modelled from the spec: no decode function exists in the C source;
section 4.1 defines it by the inverse shifts and masks, the masks being the
`SNOWFLAKE_MAX_*` constants of snowflake.c. -/
def snowflake_decode (id : Nat) : Nat × Nat × Nat × Nat :=
  ((id >>> SNOWFLAKE_TIMESTAMP_SHIFT) &&& (2 ^ SNOWFLAKE_TIMESTAMP_BITS - 1),
   (id >>> SNOWFLAKE_DATA_CENTER_ID_SHIFT) &&& SNOWFLAKE_MAX_DATA_CENTER_ID,
   (id >>> SNOWFLAKE_MACHINE_ID_SHIFT) &&& SNOWFLAKE_MAX_MACHINE_ID,
   id &&& SNOWFLAKE_MAX_SEQUENCE)

/-! ## Arithmetic characterisation of the codec -/

theorem max_data_center_id_val : SNOWFLAKE_MAX_DATA_CENTER_ID = 31 := by decide

theorem max_machine_id_val : SNOWFLAKE_MAX_MACHINE_ID = 31 := by decide

theorem max_sequence_val : SNOWFLAKE_MAX_SEQUENCE = 4095 := by decide

theorem machine_id_shift_val : SNOWFLAKE_MACHINE_ID_SHIFT = 12 := rfl

theorem data_center_id_shift_val : SNOWFLAKE_DATA_CENTER_ID_SHIFT = 17 := rfl

theorem timestamp_shift_val : SNOWFLAKE_TIMESTAMP_SHIFT = 22 := rfl

theorem or_of_lt (a b i : Nat) (h : b < 2 ^ i) : (2 ^ i * a) ||| b = 2 ^ i * a + b :=
  (Nat.mul_add_lt_is_or h a).symm

/-- With every field inside its allotted width, the or-of-shifts of
`snowflake_encode` is plain positional arithmetic. -/
theorem encode_eq_add (ts dc m seq : Nat)
    (hdc : dc < 2 ^ 5) (hm : m < 2 ^ 5) (hseq : seq < 2 ^ 12) :
    snowflake_encode ts dc m seq = ts * 2 ^ 22 + dc * 2 ^ 17 + m * 2 ^ 12 + seq := by
  unfold snowflake_encode
  rw [timestamp_shift_val, data_center_id_shift_val, machine_id_shift_val,
    Nat.shiftLeft_eq, Nat.shiftLeft_eq, Nat.shiftLeft_eq]
  have h1 : ts * 2 ^ 22 ||| dc * 2 ^ 17 = ts * 2 ^ 22 + dc * 2 ^ 17 := by
    have hb : dc * 2 ^ 17 < 2 ^ 22 := by
      have h17 : (2 : Nat) ^ 17 = 131072 := by norm_num
      have h22 : (2 : Nat) ^ 22 = 4194304 := by norm_num
      have h5 : (2 : Nat) ^ 5 = 32 := by norm_num
      rw [h17, h22]
      rw [h5] at hdc
      omega
    calc ts * 2 ^ 22 ||| dc * 2 ^ 17 = 2 ^ 22 * ts ||| dc * 2 ^ 17 := by ring_nf
      _ = 2 ^ 22 * ts + dc * 2 ^ 17 := or_of_lt _ _ _ hb
      _ = ts * 2 ^ 22 + dc * 2 ^ 17 := by ring
  have h2 : (ts * 2 ^ 22 + dc * 2 ^ 17) ||| m * 2 ^ 12
      = ts * 2 ^ 22 + dc * 2 ^ 17 + m * 2 ^ 12 := by
    have hb : m * 2 ^ 12 < 2 ^ 17 := by
      have h12 : (2 : Nat) ^ 12 = 4096 := by norm_num
      have h17 : (2 : Nat) ^ 17 = 131072 := by norm_num
      have h5 : (2 : Nat) ^ 5 = 32 := by norm_num
      rw [h12, h17]
      rw [h5] at hm
      omega
    have hrw : ts * 2 ^ 22 + dc * 2 ^ 17 = 2 ^ 17 * (ts * 2 ^ 5 + dc) := by ring
    calc ts * 2 ^ 22 + dc * 2 ^ 17 ||| m * 2 ^ 12
        = 2 ^ 17 * (ts * 2 ^ 5 + dc) ||| m * 2 ^ 12 := by rw [hrw]
      _ = 2 ^ 17 * (ts * 2 ^ 5 + dc) + m * 2 ^ 12 := or_of_lt _ _ _ hb
      _ = ts * 2 ^ 22 + dc * 2 ^ 17 + m * 2 ^ 12 := by ring
  have h3 : (ts * 2 ^ 22 + dc * 2 ^ 17 + m * 2 ^ 12) ||| seq
      = ts * 2 ^ 22 + dc * 2 ^ 17 + m * 2 ^ 12 + seq := by
    have hrw : ts * 2 ^ 22 + dc * 2 ^ 17 + m * 2 ^ 12
        = 2 ^ 12 * (ts * 2 ^ 10 + dc * 2 ^ 5 + m) := by ring
    calc ts * 2 ^ 22 + dc * 2 ^ 17 + m * 2 ^ 12 ||| seq
        = 2 ^ 12 * (ts * 2 ^ 10 + dc * 2 ^ 5 + m) ||| seq := by rw [hrw]
      _ = 2 ^ 12 * (ts * 2 ^ 10 + dc * 2 ^ 5 + m) + seq := or_of_lt _ _ _ hseq
      _ = ts * 2 ^ 22 + dc * 2 ^ 17 + m * 2 ^ 12 + seq := by ring
  rw [h1, h2, h3]

/-- Decode is a left inverse of encode on in-range fields (shared helper). -/
theorem decode_encode_aux (ts dc m seq : Nat)
    (hts : ts ≤ 2 ^ 41 - 1) (hdc : dc ≤ 31) (hm : m ≤ 31) (hseq : seq ≤ 4095) :
    snowflake_decode (snowflake_encode ts dc m seq) = (ts, dc, m, seq) := by
  have henc : snowflake_encode ts dc m seq
      = ts * 2 ^ 22 + dc * 2 ^ 17 + m * 2 ^ 12 + seq :=
    encode_eq_add ts dc m seq (by omega) (by omega) (by omega)
  unfold snowflake_decode
  rw [henc, timestamp_shift_val, data_center_id_shift_val, machine_id_shift_val,
    max_data_center_id_val, max_machine_id_val, max_sequence_val]
  have hts' : ts < 2 ^ 41 := by
    have : (0 : Nat) < 2 ^ 41 := by norm_num
    omega
  rw [show (31 : Nat) = 2 ^ 5 - 1 by norm_num, show (4095 : Nat) = 2 ^ 12 - 1 by norm_num,
    show (2 ^ SNOWFLAKE_TIMESTAMP_BITS - 1 : Nat) = 2 ^ 41 - 1 by rfl]
  rw [Nat.and_pow_two_sub_one_eq_mod, Nat.and_pow_two_sub_one_eq_mod,
    Nat.and_pow_two_sub_one_eq_mod, Nat.and_pow_two_sub_one_eq_mod,
    Nat.shiftRight_eq_div_pow, Nat.shiftRight_eq_div_pow, Nat.shiftRight_eq_div_pow]
  have e1 : (ts * 2 ^ 22 + dc * 2 ^ 17 + m * 2 ^ 12 + seq) / 2 ^ 22 % 2 ^ 41 = ts := by
    have h22 : (2 : Nat) ^ 22 = 4194304 := by norm_num
    have h17 : (2 : Nat) ^ 17 = 131072 := by norm_num
    have h12 : (2 : Nat) ^ 12 = 4096 := by norm_num
    have h41 : (2 : Nat) ^ 41 = 2199023255552 := by norm_num
    rw [h22, h17, h12, h41]
    rw [h41] at hts'
    omega
  have e2 : (ts * 2 ^ 22 + dc * 2 ^ 17 + m * 2 ^ 12 + seq) / 2 ^ 17 % 2 ^ 5 = dc := by
    have h22 : (2 : Nat) ^ 22 = 4194304 := by norm_num
    have h17 : (2 : Nat) ^ 17 = 131072 := by norm_num
    have h12 : (2 : Nat) ^ 12 = 4096 := by norm_num
    have h5 : (2 : Nat) ^ 5 = 32 := by norm_num
    rw [h22, h17, h12, h5]
    omega
  have e3 : (ts * 2 ^ 22 + dc * 2 ^ 17 + m * 2 ^ 12 + seq) / 2 ^ 12 % 2 ^ 5 = m := by
    have h22 : (2 : Nat) ^ 22 = 4194304 := by norm_num
    have h17 : (2 : Nat) ^ 17 = 131072 := by norm_num
    have h12 : (2 : Nat) ^ 12 = 4096 := by norm_num
    have h5 : (2 : Nat) ^ 5 = 32 := by norm_num
    rw [h22, h17, h12, h5]
    omega
  have e4 : (ts * 2 ^ 22 + dc * 2 ^ 17 + m * 2 ^ 12 + seq) % 2 ^ 12 = seq := by
    have h22 : (2 : Nat) ^ 22 = 4194304 := by norm_num
    have h17 : (2 : Nat) ^ 17 = 131072 := by norm_num
    have h12 : (2 : Nat) ^ 12 = 4096 := by norm_num
    rw [h22, h17, h12]
    omega
  rw [e1, e2, e3, e4]

/-- C4: decode is a left inverse of encode: for all fields within their
configured widths, decoding the encoded 64-bit value recovers exactly the
four-tuple. -/
theorem C4_decode_encode (ts dc m seq : Nat)
    (hts : ts ≤ 2 ^ 41 - 1) (hdc : dc ≤ 31) (hm : m ≤ 31) (hseq : seq ≤ 4095) :
    snowflake_decode (snowflake_encode ts dc m seq) = (ts, dc, m, seq) :=
  decode_encode_aux ts dc m seq hts hdc hm hseq

theorem C4_witness : snowflake_decode (snowflake_encode 100 1 1 0) = (100, 1, 1, 0) :=
  C4_decode_encode 100 1 1 0 (by norm_num) (by norm_num) (by norm_num) (by norm_num)

/-! ## Claims about the functions with complete bodies -/

/-- C5 evidence: the C `snowflake_construct` performs no range validation; at
the claim's failure inputs (`data_center_id = 32`, resp. `machine_id = 32`,
one past the documented 5-bit maximum) it still returns a generator holding
the out-of-range value verbatim, and its return type admits no error. -/
theorem C5_construct_accepts_32 :
    snowflake_construct 32 0 =
      { data_center_id := 32, machine_id := 0, sequence := 0, last_timestamp := 0 } ∧
    snowflake_construct 0 32 =
      { data_center_id := 0, machine_id := 32, sequence := 0, last_timestamp := 0 } :=
  ⟨rfl, rfl⟩

/-- C9: `snowflake_construct` is total, validates nothing, and stores its two
arguments verbatim (in particular also values exceeding the 5-bit widths),
with `sequence` and `last_timestamp` zeroed; it takes no epoch argument and
its result type has no error case. -/
theorem C9_construct_total_no_validation (d m : Nat) :
    (snowflake_construct d m).data_center_id = d ∧
    (snowflake_construct d m).machine_id = m ∧
    (snowflake_construct d m).sequence = 0 ∧
    (snowflake_construct d m).last_timestamp = 0 :=
  ⟨rfl, rfl, rfl, rfl⟩

/-- C10: `snowflake_next_id` as written leaves every data field of the
generator unchanged and its effect trace is exactly a mutex lock followed by
a mutex unlock: no state is mutated and no ID value is computed. -/
theorem C10_next_id_stub_frame (s : snowflake_t) :
    (snowflake_next_id s).1.data_center_id = s.data_center_id ∧
    (snowflake_next_id s).1.machine_id = s.machine_id ∧
    (snowflake_next_id s).1.sequence = s.sequence ∧
    (snowflake_next_id s).1.last_timestamp = s.last_timestamp ∧
    (snowflake_next_id s).2 = [MutexAction.lock, MutexAction.unlock] :=
  ⟨rfl, rfl, rfl, rfl, rfl⟩

/-- C8: on a reading of `tv_sec` seconds and `tv_usec` microseconds whose
millisecond conversion fits in 64 bits, `snowflake_get_timestamp` returns
exactly `tv_sec * 1000 + tv_usec / 1000` with truncating division; the
reading is taken as an argument because the C code polls `gettimeofday`
afresh on every call and keeps no cache. -/
theorem C8_get_timestamp_millis (tv_sec tv_usec : Nat)
    (h : tv_sec * 1000 + tv_usec / 1000 < 2 ^ 64) :
    snowflake_get_timestamp tv_sec tv_usec = tv_sec * 1000 + tv_usec / 1000 :=
  Nat.mod_eq_of_lt h

theorem C8_witness :
    snowflake_get_timestamp 1700000000 999999 = 1700000000 * 1000 + 999999 / 1000 :=
  C8_get_timestamp_millis 1700000000 999999 (by norm_num)

/-! ## Generator core, modelled from the spec

The C `snowflake_next_id` (lines 123-130) has an empty critical section and
`snwoflake_get_next_millisecond` (lines 132-136) has an empty body, so the
generation algorithm itself is modelled from the spec, section 4.3.  The
injected clock is a stream of readings `clock : Nat → Nat`, consumed one
reading per poll; `polls` counts the readings consumed so far.  The
wait-for-next-millisecond loop is given polling fuel: exhausting the fuel
models the (spec-acknowledged) unbounded blocking on a frozen clock and is
reported as `clockStalled`, an outcome that never occurs when the clock
strictly advances within the fuel window. -/

/-- Errors of the modelled generator: `clockRegression` carries the rewind
magnitude `last_timestamp - t`; `clockStalled` is the fuel-exhaustion marker
of the modelled wait loop. -/
inductive SnowflakeError where
  | clockRegression (amount : Nat)
  | clockStalled
deriving DecidableEq, Repr

/-- Generator state together with the number of clock readings consumed. -/
structure GenWorld where
  gen : snowflake_t
  polls : Nat
deriving DecidableEq, Repr

/-- Modelled from the spec: the body of `snwoflake_get_next_millisecond` in
snowflake.c is empty; section 4.3 step 3 prescribes polling the clock until
it strictly exceeds `last_timestamp`.  Polling starts at reading index `i`
and is allowed `fuel` polls; on success it returns the later reading and the
next unconsumed index. -/
def snwoflake_get_next_millisecond (clock : Nat → Nat) (last_timestamp : Nat) :
    Nat → Nat → Option (Nat × Nat)
  | _, 0 => none
  | i, fuel + 1 =>
    if last_timestamp < clock i then some (clock i, i + 1)
    else snwoflake_get_next_millisecond clock last_timestamp (i + 1) fuel

/-- Modelled from the spec: the critical section of `snowflake_next_id` in
snowflake.c is empty; section 4.3 prescribes: read the clock; fail with the
regression error if the reading is below `last_timestamp`; on an equal
reading increment the sequence modulo `2 ^ sequence_bits`, waiting for the
next millisecond if it wrapped to zero; on a later reading reset the
sequence; store the timestamp used and return the encoded ID. -/
def next_id (clock : Nat → Nat) (fuel : Nat) (w : GenWorld) :
    GenWorld × Except SnowflakeError Nat :=
  if clock w.polls < w.gen.last_timestamp then
    ({ w with polls := w.polls + 1 },
     Except.error (SnowflakeError.clockRegression (w.gen.last_timestamp - clock w.polls)))
  else if clock w.polls = w.gen.last_timestamp then
    if (w.gen.sequence + 1) % 2 ^ SNOWFLAKE_SEQUENCE_BITS = 0 then
      match snwoflake_get_next_millisecond clock w.gen.last_timestamp (w.polls + 1) fuel with
      | none =>
        ({ w with polls := w.polls + 1 + fuel }, Except.error SnowflakeError.clockStalled)
      | some (t2, i2) =>
        ({ gen := { w.gen with sequence := 0, last_timestamp := t2 }, polls := i2 },
         Except.ok (snowflake_encode (t2 - SNOWFLAKE_EPOCH) w.gen.data_center_id w.gen.machine_id 0))
    else
      ({ gen := { w.gen with sequence := (w.gen.sequence + 1) % 2 ^ SNOWFLAKE_SEQUENCE_BITS },
         polls := w.polls + 1 },
       Except.ok (snowflake_encode (clock w.polls - SNOWFLAKE_EPOCH) w.gen.data_center_id
         w.gen.machine_id ((w.gen.sequence + 1) % 2 ^ SNOWFLAKE_SEQUENCE_BITS)))
  else
    ({ gen := { w.gen with sequence := 0, last_timestamp := clock w.polls }, polls := w.polls + 1 },
     Except.ok (snowflake_encode (clock w.polls - SNOWFLAKE_EPOCH) w.gen.data_center_id
       w.gen.machine_id 0))

/-- Results of `n` successive `next_id` calls, in call order. -/
def runIds (clock : Nat → Nat) (fuel : Nat) : Nat → GenWorld → List (Except SnowflakeError Nat)
  | 0, _ => []
  | n + 1, w => (next_id clock fuel w).2 :: runIds clock fuel n (next_id clock fuel w).1

/-- The world reached after `n` successive `next_id` calls. -/
def runWorld (clock : Nat → Nat) (fuel : Nat) : Nat → GenWorld → GenWorld
  | 0, w => w
  | n + 1, w => runWorld clock fuel n (next_id clock fuel w).1

/-- C6 clock: fixed at `SNOWFLAKE_EPOCH + 100`. -/
def c6clock : Nat → Nat := fun _ => 1577836800100

/-- C6: with data center 1, machine 1 and the clock fixed at the default
epoch plus 100 ms, the first call on a fresh generator returns 419565568 and
the second returns 419565569; 419565568 is `(100 <<< 22) ||| (1 <<< 17) ||| (1 <<< 12) ||| 0`. -/
theorem C6_concrete_scenario :
    (next_id c6clock 0 { gen := snowflake_construct 1 1, polls := 0 }).2 =
      Except.ok 419565568 ∧
    (next_id c6clock 0
        (next_id c6clock 0 { gen := snowflake_construct 1 1, polls := 0 }).1).2 =
      Except.ok 419565569 ∧
    (419565568 : Nat) = (100 <<< 22) ||| (1 <<< 17) ||| (1 <<< 12) ||| 0 :=
  ⟨rfl, rfl, by decide⟩

/-- C7: construction yields `sequence = 0` and `last_timestamp = 0`, the
sentinel below any positive clock reading, so the first `next_id` call under
any clock reading `t > 0` takes the fresh-millisecond branch: it returns the
ID encoding `(t - epoch, d, m, 0)` and stores `last_timestamp = t`. -/
theorem C7_construct_initial_state (d m t : Nat) (ht : 0 < t) :
    (snowflake_construct d m).sequence = 0 ∧
    (snowflake_construct d m).last_timestamp = 0 ∧
    (snowflake_construct d m).last_timestamp < t ∧
    (∀ clock fuel, clock 0 = t →
      next_id clock fuel { gen := snowflake_construct d m, polls := 0 } =
        ({ gen := { data_center_id := d, machine_id := m, sequence := 0, last_timestamp := t },
           polls := 1 },
         Except.ok (snowflake_encode (t - SNOWFLAKE_EPOCH) d m 0))) := by
  refine ⟨rfl, rfl, ht, ?_⟩
  intro clock fuel hc
  unfold next_id snowflake_construct
  simp only [hc]
  rw [if_neg (by omega), if_neg (by omega)]

theorem C7_witness :
    (snowflake_construct 1 1).sequence = 0 ∧
    (snowflake_construct 1 1).last_timestamp = 0 ∧
    (snowflake_construct 1 1).last_timestamp < 1577836800100 ∧
    (∀ clock fuel, clock 0 = 1577836800100 →
      next_id clock fuel { gen := snowflake_construct 1 1, polls := 0 } =
        ({ gen := { data_center_id := 1, machine_id := 1, sequence := 0,
                    last_timestamp := 1577836800100 },
           polls := 1 },
         Except.ok (snowflake_encode 100 1 1 0))) :=
  C7_construct_initial_state 1 1 1577836800100 (by norm_num)

/-! ## Branch lemmas for the modelled `next_id` -/

theorem next_id_regress (clock : Nat → Nat) (fuel : Nat) (w : GenWorld)
    (h : clock w.polls < w.gen.last_timestamp) :
    next_id clock fuel w =
      ({ w with polls := w.polls + 1 },
       Except.error (SnowflakeError.clockRegression (w.gen.last_timestamp - clock w.polls))) := by
  unfold next_id
  rw [if_pos h]

theorem next_id_fresh (clock : Nat → Nat) (fuel : Nat) (w : GenWorld)
    (h : w.gen.last_timestamp < clock w.polls) :
    next_id clock fuel w =
      ({ gen := { w.gen with sequence := 0, last_timestamp := clock w.polls },
         polls := w.polls + 1 },
       Except.ok (snowflake_encode (clock w.polls - SNOWFLAKE_EPOCH) w.gen.data_center_id
         w.gen.machine_id 0)) := by
  unfold next_id
  rw [if_neg (by omega), if_neg (by omega)]

theorem next_id_same_no_wrap (clock : Nat → Nat) (fuel : Nat) (w : GenWorld)
    (h : clock w.polls = w.gen.last_timestamp)
    (hs : (w.gen.sequence + 1) % 2 ^ SNOWFLAKE_SEQUENCE_BITS ≠ 0) :
    next_id clock fuel w =
      ({ gen := { w.gen with sequence := (w.gen.sequence + 1) % 2 ^ SNOWFLAKE_SEQUENCE_BITS },
         polls := w.polls + 1 },
       Except.ok (snowflake_encode (clock w.polls - SNOWFLAKE_EPOCH) w.gen.data_center_id
         w.gen.machine_id ((w.gen.sequence + 1) % 2 ^ SNOWFLAKE_SEQUENCE_BITS))) := by
  unfold next_id
  rw [if_neg (by omega), if_pos h, if_neg hs]

theorem next_id_same_wrap_some (clock : Nat → Nat) (fuel : Nat) (w : GenWorld)
    (h : clock w.polls = w.gen.last_timestamp)
    (hs : (w.gen.sequence + 1) % 2 ^ SNOWFLAKE_SEQUENCE_BITS = 0)
    (t2 i2 : Nat)
    (heq : snwoflake_get_next_millisecond clock w.gen.last_timestamp (w.polls + 1) fuel
      = some (t2, i2)) :
    next_id clock fuel w =
      ({ gen := { w.gen with sequence := 0, last_timestamp := t2 }, polls := i2 },
       Except.ok (snowflake_encode (t2 - SNOWFLAKE_EPOCH) w.gen.data_center_id
         w.gen.machine_id 0)) := by
  unfold next_id
  rw [if_neg (by omega), if_pos h, if_pos hs, heq]

theorem next_id_same_wrap_none (clock : Nat → Nat) (fuel : Nat) (w : GenWorld)
    (h : clock w.polls = w.gen.last_timestamp)
    (hs : (w.gen.sequence + 1) % 2 ^ SNOWFLAKE_SEQUENCE_BITS = 0)
    (heq : snwoflake_get_next_millisecond clock w.gen.last_timestamp (w.polls + 1) fuel = none) :
    next_id clock fuel w =
      ({ w with polls := w.polls + 1 + fuel }, Except.error SnowflakeError.clockStalled) := by
  unfold next_id
  rw [if_neg (by omega), if_pos h, if_pos hs, heq]

/-! ## Properties of the modelled wait loop -/

/-- If some reading in the fuel window strictly exceeds `last_timestamp`,
the wait loop succeeds and returns a reading strictly above it. -/
theorem wait_succeeds (clock : Nat → Nat) (L : Nat) :
    ∀ fuel i j, i ≤ j → j < i + fuel → L < clock j →
      ∃ t2 i2, snwoflake_get_next_millisecond clock L i fuel = some (t2, i2) ∧ L < t2 := by
  intro fuel
  induction fuel with
  | zero =>
    intro i j hij hj _
    omega
  | succ f ih =>
    intro i j hij hj hcj
    unfold snwoflake_get_next_millisecond
    by_cases h : L < clock i
    · exact ⟨clock i, i + 1, by rw [if_pos h], h⟩
    · have hne : i ≠ j := fun he => h (he ▸ hcj)
      obtain ⟨t2, i2, heq, hlt⟩ := ih (i + 1) j (by omega) (by omega) hcj
      exact ⟨t2, i2, by rw [if_neg h]; exact heq, hlt⟩

/-- Whatever the wait loop returns was a clock reading strictly above
`last_timestamp`, taken at an index at or after the starting one, and the
returned poll index is just past that reading. -/
theorem wait_spec (clock : Nat → Nat) (L : Nat) :
    ∀ fuel i t2 i2, snwoflake_get_next_millisecond clock L i fuel = some (t2, i2) →
      L < t2 ∧ ∃ j, i ≤ j ∧ i2 = j + 1 ∧ clock j = t2 := by
  intro fuel
  induction fuel with
  | zero =>
    intro i t2 i2 h
    exact absurd h (by unfold snwoflake_get_next_millisecond; exact Option.noConfusion)
  | succ f ih =>
    intro i t2 i2 h
    unfold snwoflake_get_next_millisecond at h
    by_cases hc : L < clock i
    · rw [if_pos hc] at h
      obtain ⟨h1, h2⟩ := Prod.mk.injEq .. ▸ Option.some.injEq .. ▸ h
      exact ⟨h1 ▸ hc, i, le_refl i, h2.symm, h1⟩
    · rw [if_neg hc] at h
      obtain ⟨hl, j, hij, hji, hcj⟩ := ih (i + 1) t2 i2 h
      exact ⟨hl, j, by omega, hji, hcj⟩

/-! ## C2: clock regression -/

/-- C2: whenever the injected clock reads `t` below the stored
`last_timestamp` L, `next_id` fails with the regression error of magnitude
`L - t`, generates no ID, and leaves both mutable fields (indeed the whole
generator struct) exactly as they were; the subsequent call, whose reading
is at least L (and, for the modelled wait loop, with some reading strictly
above L within the fuel window in case that call has to wait out a sequence
wrap), returns an ID. -/
theorem C2_clock_regression (clock : Nat → Nat) (fuel : Nat) (w : GenWorld)
    (hreg : clock w.polls < w.gen.last_timestamp)
    (hge : w.gen.last_timestamp ≤ clock (w.polls + 1))
    (hadv : ∃ j, w.polls + 2 ≤ j ∧ j < w.polls + 2 + fuel ∧ w.gen.last_timestamp < clock j) :
    next_id clock fuel w =
      ({ w with polls := w.polls + 1 },
       Except.error (SnowflakeError.clockRegression (w.gen.last_timestamp - clock w.polls))) ∧
    (next_id clock fuel w).1.gen.last_timestamp = w.gen.last_timestamp ∧
    (next_id clock fuel w).1.gen.sequence = w.gen.sequence ∧
    ∃ id, (next_id clock fuel (next_id clock fuel w).1).2 = Except.ok id := by
  have h1 := next_id_regress clock fuel w hreg
  refine ⟨h1, by rw [h1], by rw [h1], ?_⟩
  rw [h1]
  have hp : ({ w with polls := w.polls + 1 } : GenWorld).polls = w.polls + 1 := rfl
  have hg : ({ w with polls := w.polls + 1 } : GenWorld).gen = w.gen := rfl
  by_cases ht : clock (w.polls + 1) = w.gen.last_timestamp
  · by_cases hs : (w.gen.sequence + 1) % 2 ^ SNOWFLAKE_SEQUENCE_BITS = 0
    · obtain ⟨j, hj1, hj2, hj3⟩ := hadv
      obtain ⟨t2, i2, heq, _⟩ :=
        wait_succeeds clock w.gen.last_timestamp fuel (w.polls + 2) j hj1 hj2 hj3
      have h2 := next_id_same_wrap_some clock fuel { w with polls := w.polls + 1 }
        (by rw [hp, hg]; exact ht) (by rw [hg]; exact hs) t2 i2 (by rw [hp, hg]; exact heq)
      rw [h2]
      exact ⟨_, rfl⟩
    · have h2 := next_id_same_no_wrap clock fuel { w with polls := w.polls + 1 }
        (by rw [hp, hg]; exact ht) (by rw [hg]; exact hs)
      rw [h2]
      exact ⟨_, rfl⟩
  · have hlt : ({ w with polls := w.polls + 1 } : GenWorld).gen.last_timestamp
        < clock ({ w with polls := w.polls + 1 } : GenWorld).polls := by
      rw [hp, hg]
      omega
    have h2 := next_id_fresh clock fuel { w with polls := w.polls + 1 } hlt
    rw [h2]
    exact ⟨_, rfl⟩

/-- C2 witness clock: reads 3 (a regression below the stored 10), then 10,
then 11. -/
def c2clock : Nat → Nat := fun i => if i = 0 then 3 else if i = 1 then 10 else 11

/-- C2 witness world: data center 1, machine 1, sequence 7, last timestamp 10. -/
def c2world : GenWorld :=
  { gen := { data_center_id := 1, machine_id := 1, sequence := 7, last_timestamp := 10 },
    polls := 0 }

theorem C2_witness :
    next_id c2clock 1 c2world =
      ({ c2world with polls := 1 },
       Except.error (SnowflakeError.clockRegression (c2world.gen.last_timestamp - c2clock 0))) ∧
    (next_id c2clock 1 c2world).1.gen.last_timestamp = c2world.gen.last_timestamp ∧
    (next_id c2clock 1 c2world).1.gen.sequence = c2world.gen.sequence ∧
    ∃ id, (next_id c2clock 1 (next_id c2clock 1 c2world).1).2 = Except.ok id :=
  C2_clock_regression c2clock 1 c2world (by decide) (by decide)
    ⟨2, by decide, by decide, by decide⟩

/-- One-step unfolding of `runIds` (so that runs at literal lengths can be
peeled without deep kernel reduction). -/
theorem runIds_succ (clock : Nat → Nat) (fuel n : Nat) (w : GenWorld) :
    runIds clock fuel (n + 1) w
      = (next_id clock fuel w).2 :: runIds clock fuel n (next_id clock fuel w).1 := rfl

/-- One-step unfolding of `runWorld`. -/
theorem runWorld_succ (clock : Nat → Nat) (fuel n : Nat) (w : GenWorld) :
    runWorld clock fuel (n + 1) w = runWorld clock fuel n (next_id clock fuel w).1 := rfl

/-! ## C3: sequence increment and rollover -/

/-- Extracts the decoded sequence field of a successful result. -/
def seqField (r : Except SnowflakeError Nat) : Option Nat :=
  match r with
  | Except.ok id => some (snowflake_decode id).2.2.2
  | Except.error _ => none

/-- While every relevant reading stays equal to the stored timestamp `T` and
the sequence never wraps, `n` successive calls return the sequence values
`sequence + 1, ..., sequence + n` in order at timestamp `T`, and only the
sequence advances. -/
theorem run_same_ms (clock : Nat → Nat) (fuel : Nat) (T : Nat) :
    ∀ n (w : GenWorld),
      w.gen.last_timestamp = T →
      (∀ i, w.polls ≤ i → i < w.polls + n → clock i = T) →
      w.gen.sequence + n < 2 ^ SNOWFLAKE_SEQUENCE_BITS →
      (∀ k, k < n → (runIds clock fuel n w).get? k
         = some (Except.ok (snowflake_encode (T - SNOWFLAKE_EPOCH) w.gen.data_center_id
             w.gen.machine_id (w.gen.sequence + 1 + k)))) ∧
      runWorld clock fuel n w =
        { gen := { w.gen with sequence := w.gen.sequence + n }, polls := w.polls + n } := by
  intro n
  induction n with
  | zero =>
    intro w _ _ _
    refine ⟨fun k hk => absurd hk (by omega), ?_⟩
    obtain ⟨⟨dc, m, q, L⟩, p⟩ := w
    rfl
  | succ n ih =>
    intro w hL hc hq
    obtain ⟨⟨dc, m, q, L⟩, p⟩ := w
    dsimp only at hL hc hq
    subst hL
    have hb : (2 : Nat) ^ SNOWFLAKE_SEQUENCE_BITS = 4096 := by decide
    have ht : clock p = (⟨⟨dc, m, q, L⟩, p⟩ : GenWorld).gen.last_timestamp :=
      hc p (le_refl p) (by omega)
    have hseq_eq : (q + 1) % 2 ^ SNOWFLAKE_SEQUENCE_BITS = q + 1 :=
      Nat.mod_eq_of_lt (by omega)
    have hs : ((⟨⟨dc, m, q, L⟩, p⟩ : GenWorld).gen.sequence + 1) % 2 ^ SNOWFLAKE_SEQUENCE_BITS
        ≠ 0 := by
      dsimp only
      omega
    have hstep := next_id_same_no_wrap clock fuel ⟨⟨dc, m, q, L⟩, p⟩ ht hs
    dsimp only at hstep
    rw [hseq_eq, hc p (le_refl p) (by omega)] at hstep
    obtain ⟨ihget, ihworld⟩ := ih ⟨⟨dc, m, q + 1, L⟩, p + 1⟩ rfl
      (fun i h1 h2 => hc i (by dsimp only at h1 ⊢; omega) (by dsimp only at h2 ⊢; omega))
      (by dsimp only; omega)
    constructor
    · intro k hk
      have hsplit : runIds clock fuel (n + 1) ⟨⟨dc, m, q, L⟩, p⟩
          = (next_id clock fuel ⟨⟨dc, m, q, L⟩, p⟩).2
            :: runIds clock fuel n (next_id clock fuel ⟨⟨dc, m, q, L⟩, p⟩).1 := rfl
      rw [hsplit, hstep]
      cases k with
      | zero => rfl
      | succ k =>
        dsimp only [List.get?]
        have e2 : q + 1 + 1 + k = q + 1 + (k + 1) := by omega
        have := ihget k (by omega)
        dsimp only at this
        rw [e2] at this
        exact this
    · have hsplit : runWorld clock fuel (n + 1) ⟨⟨dc, m, q, L⟩, p⟩
          = runWorld clock fuel n (next_id clock fuel ⟨⟨dc, m, q, L⟩, p⟩).1 := rfl
      rw [hsplit, hstep]
      dsimp only
      rw [ihworld]
      have e1 : q + 1 + n = q + (n + 1) := by omega
      have e2 : p + 1 + n = p + (n + 1) := by omega
      rw [e1, e2]

/-- C3 rollover clock: fixed at `SNOWFLAKE_EPOCH + 1` up to poll index 4098
(enough for 4096 calls, the 4097th call's reading and two waiting polls),
then one millisecond later. -/
def c3clock : Nat → Nat := fun i => if i < 4099 then 1577836800001 else 1577836800002

/-- C3 fresh world: data center 1, machine 1, freshly constructed. -/
def c3w0 : GenWorld := { gen := snowflake_construct 1 1, polls := 0 }

/-- C3 same-millisecond clock for the witness, fixed at the stored timestamp. -/
def c3aclock : Nat → Nat := fun _ => 1577836800050

/-- C3 witness world with sequence 5 inside the current millisecond. -/
def c3aworld : GenWorld :=
  { gen := { data_center_id := 1, machine_id := 1, sequence := 5,
             last_timestamp := 1577836800050 },
    polls := 0 }

/-- C3 witness world with the sequence space exhausted (sequence 4095). -/
def c3bworld : GenWorld :=
  { gen := { data_center_id := 1, machine_id := 1, sequence := 4095,
             last_timestamp := 1577836800050 },
    polls := 0 }

/-- C3 witness clock that stays in the current millisecond for one reading
and then advances. -/
def c3bclock : Nat → Nat := fun i => if i = 0 then 1577836800050 else 1577836800051

/-- C3: on a reading equal to `last_timestamp` the sequence advances to
`(sequence + 1) mod 2 ^ 12` with the timestamp kept (first conjunct); when
that increment wraps to 0 the call waits for a strictly later reading and
resumes with sequence 0 at that new, later timestamp (second conjunct); 4096
calls inside one simulated millisecond on a fresh generator return the
sequence values 0..4095 in order (third conjunct, position `k` carries
sequence `k`); and the 4097th call in that millisecond polls the clock past
its stored timestamp and returns the ID with sequence 0 at the advanced
timestamp (fourth conjunct). -/
theorem C3_sequence_rollover :
    (∀ (clock : Nat → Nat) (fuel : Nat) (w : GenWorld),
      clock w.polls = w.gen.last_timestamp →
      (w.gen.sequence + 1) % 2 ^ SNOWFLAKE_SEQUENCE_BITS ≠ 0 →
      (next_id clock fuel w).1.gen.sequence
          = (w.gen.sequence + 1) % 2 ^ SNOWFLAKE_SEQUENCE_BITS ∧
      (next_id clock fuel w).1.gen.last_timestamp = w.gen.last_timestamp) ∧
    (∀ (clock : Nat → Nat) (fuel : Nat) (w : GenWorld) (t2 i2 : Nat),
      clock w.polls = w.gen.last_timestamp →
      (w.gen.sequence + 1) % 2 ^ SNOWFLAKE_SEQUENCE_BITS = 0 →
      snwoflake_get_next_millisecond clock w.gen.last_timestamp (w.polls + 1) fuel
        = some (t2, i2) →
      (next_id clock fuel w).1.gen.sequence = 0 ∧
      (next_id clock fuel w).1.gen.last_timestamp = t2 ∧
      w.gen.last_timestamp < t2) ∧
    (∀ k, k < 4096 →
      (runIds c3clock 4 4096 c3w0).get? k
          = some (Except.ok (snowflake_encode 1 1 1 k)) ∧
      (snowflake_decode (snowflake_encode 1 1 1 k)).2.2.2 = k) ∧
    (runWorld c3clock 4 4096 c3w0 =
       { gen := { data_center_id := 1, machine_id := 1, sequence := 4095,
                  last_timestamp := 1577836800001 },
         polls := 4096 } ∧
     (next_id c3clock 4 (runWorld c3clock 4 4096 c3w0)).2
         = Except.ok (snowflake_encode 2 1 1 0) ∧
     (next_id c3clock 4 (runWorld c3clock 4 4096 c3w0)).1 =
       { gen := { data_center_id := 1, machine_id := 1, sequence := 0,
                  last_timestamp := 1577836800002 },
         polls := 4100 }) := by
  have hstep1 : next_id c3clock 4 c3w0 =
      ({ gen := { data_center_id := 1, machine_id := 1, sequence := 0,
                  last_timestamp := 1577836800001 }, polls := 1 },
       Except.ok (snowflake_encode 1 1 1 0)) := rfl
  have hrunW : runWorld c3clock 4 4096 c3w0 =
      { gen := { data_center_id := 1, machine_id := 1, sequence := 4095,
                 last_timestamp := 1577836800001 },
        polls := 4096 } := by
    have hsplit := runWorld_succ c3clock 4 4095 c3w0
    norm_num at hsplit
    rw [hsplit, hstep1]
    have hw := (run_same_ms c3clock 4 1577836800001 4095
      { gen := { data_center_id := 1, machine_id := 1, sequence := 0,
                 last_timestamp := 1577836800001 }, polls := 1 }
      rfl
      (by
        intro i h1 h2
        dsimp only at h1 h2
        show c3clock i = 1577836800001
        unfold c3clock
        rw [if_pos (by omega)])
      (by decide)).2
    rw [hw]
  refine ⟨?_, ?_, ?_, ?_⟩
  · intro clock fuel w h hs
    rw [next_id_same_no_wrap clock fuel w h hs]
    exact ⟨rfl, rfl⟩
  · intro clock fuel w t2 i2 h hs heq
    rw [next_id_same_wrap_some clock fuel w h hs t2 i2 heq]
    exact ⟨rfl, rfl, (wait_spec clock w.gen.last_timestamp fuel (w.polls + 1) t2 i2 heq).1⟩
  · intro k hk
    refine ⟨?_, ?_⟩
    · have hsplit := runIds_succ c3clock 4 4095 c3w0
      norm_num at hsplit
      rw [hsplit, hstep1]
      cases k with
      | zero => rfl
      | succ k =>
        dsimp only [List.get?]
        have hget := (run_same_ms c3clock 4 1577836800001 4095
          { gen := { data_center_id := 1, machine_id := 1, sequence := 0,
                     last_timestamp := 1577836800001 }, polls := 1 }
          rfl
          (by
            intro i h1 h2
            dsimp only at h1 h2
            show c3clock i = 1577836800001
            unfold c3clock
            rw [if_pos (by omega)])
          (by decide)).1 k (by omega)
        dsimp only at hget
        have e1 : (1577836800001 : Nat) - SNOWFLAKE_EPOCH = 1 := by decide
        have e2 : 0 + 1 + k = k + 1 := by omega
        rw [e1, e2] at hget
        exact hget
    · have hd := decode_encode_aux 1 1 1 k (by norm_num) (by norm_num) (by norm_num) (by omega)
      rw [hd]
  · refine ⟨hrunW, ?_, ?_⟩
    · rw [hrunW]
      rfl
    · rw [hrunW]
      rfl

theorem C3_witness :
    ((next_id c3aclock 0 c3aworld).1.gen.sequence
        = (c3aworld.gen.sequence + 1) % 2 ^ SNOWFLAKE_SEQUENCE_BITS ∧
     (next_id c3aclock 0 c3aworld).1.gen.last_timestamp
        = c3aworld.gen.last_timestamp) ∧
    ((next_id c3bclock 1 c3bworld).1.gen.sequence = 0 ∧
     (next_id c3bclock 1 c3bworld).1.gen.last_timestamp = 1577836800051 ∧
     c3bworld.gen.last_timestamp < 1577836800051) :=
  ⟨C3_sequence_rollover.1 c3aclock 0 c3aworld (by decide) (by decide),
   C3_sequence_rollover.2.1 c3bclock 1 c3bworld 1577836800051 2
     (by decide) (by decide) (by decide)⟩

/-! ## C1: single-instance monotonicity -/

/-- The injected clock is non-decreasing in poll order. -/
def ClockMono (clock : Nat → Nat) : Prop := ∀ i j, i ≤ j → clock i ≤ clock j

/-- Every reading lies at or after the epoch and its offset fits the 41-bit
timestamp field. -/
def ClockInRange (clock : Nat → Nat) : Prop :=
  ∀ i, SNOWFLAKE_EPOCH ≤ clock i ∧
    clock i < SNOWFLAKE_EPOCH + 2 ^ SNOWFLAKE_TIMESTAMP_BITS

/-- Invariant maintained by every call: the sequence and the node identity
fit their fields, and the stored timestamp is at most the next reading and
within the encodable range. -/
def GenInv (clock : Nat → Nat) (w : GenWorld) : Prop :=
  w.gen.sequence < 2 ^ SNOWFLAKE_SEQUENCE_BITS ∧
  w.gen.data_center_id < 2 ^ SNOWFLAKE_DATA_CENTER_ID_BITS ∧
  w.gen.machine_id < 2 ^ SNOWFLAKE_MACHINE_ID_BITS ∧
  w.gen.last_timestamp ≤ clock w.polls ∧
  w.gen.last_timestamp < SNOWFLAKE_EPOCH + 2 ^ SNOWFLAKE_TIMESTAMP_BITS

/-- The ID encoding the generator's current state. -/
def stateId (w : GenWorld) : Nat :=
  snowflake_encode (w.gen.last_timestamp - SNOWFLAKE_EPOCH) w.gen.data_center_id
    w.gen.machine_id w.gen.sequence

/-- The situation right after a successful call: the invariant holds, the
stored timestamp is a genuine (post-epoch) reading, and the returned ID
encodes the stored state. -/
def AfterOk (clock : Nat → Nat) (w : GenWorld) (id : Nat) : Prop :=
  GenInv clock w ∧ SNOWFLAKE_EPOCH ≤ w.gen.last_timestamp ∧ id = stateId w

/-- Encoding is strictly monotone in the lexicographic order of
(timestamp offset, sequence) for a fixed in-range node identity. -/
theorem encode_lt_encode (ts1 ts2 dc m q1 q2 : Nat)
    (hdc : dc < 2 ^ 5) (hm : m < 2 ^ 5) (hq1 : q1 < 2 ^ 12) (hq2 : q2 < 2 ^ 12)
    (hlex : ts1 < ts2 ∨ (ts1 = ts2 ∧ q1 < q2)) :
    snowflake_encode ts1 dc m q1 < snowflake_encode ts2 dc m q2 := by
  rw [encode_eq_add ts1 dc m q1 hdc hm hq1, encode_eq_add ts2 dc m q2 hdc hm hq2]
  have h22 : (2 : Nat) ^ 22 = 4194304 := by norm_num
  have h17 : (2 : Nat) ^ 17 = 131072 := by norm_num
  have h12 : (2 : Nat) ^ 12 = 4096 := by norm_num
  rw [h22, h17, h12]
  rw [h12] at hq1 hq2
  rcases hlex with h | ⟨he, hq⟩
  · omega
  · omega

/-- A successful call establishes `AfterOk` for the new world and the
returned ID. -/
theorem step_ok (clock : Nat → Nat) (fuel : Nat) (w w' : GenWorld) (id : Nat)
    (hmono : ClockMono clock) (hrange : ClockInRange clock) (hinv : GenInv clock w)
    (h : next_id clock fuel w = (w', Except.ok id)) :
    AfterOk clock w' id := by
  obtain ⟨hq, hdc, hm, hle, hub⟩ := hinv
  rcases Nat.lt_trichotomy (clock w.polls) w.gen.last_timestamp with hlt | heq | hgt
  · rw [next_id_regress clock fuel w hlt] at h
    exact absurd (congrArg Prod.snd h) (by simp)
  · by_cases hs : (w.gen.sequence + 1) % 2 ^ SNOWFLAKE_SEQUENCE_BITS = 0
    · cases hwait : snwoflake_get_next_millisecond clock w.gen.last_timestamp
          (w.polls + 1) fuel with
      | none =>
        rw [next_id_same_wrap_none clock fuel w heq hs hwait] at h
        exact absurd (congrArg Prod.snd h) (by simp)
      | some p =>
        obtain ⟨t2, i2⟩ := p
        rw [next_id_same_wrap_some clock fuel w heq hs t2 i2 hwait] at h
        have hw' : w' = { gen := { w.gen with sequence := 0, last_timestamp := t2 },
                          polls := i2 } := (congrArg Prod.fst h).symm
        have hid : id = snowflake_encode (t2 - SNOWFLAKE_EPOCH) w.gen.data_center_id
            w.gen.machine_id 0 := by
          have h2 := congrArg Prod.snd h
          dsimp only at h2
          exact (Except.ok.inj h2).symm
        obtain ⟨hlt2, j, hj1, hj2, hj3⟩ :=
          wait_spec clock w.gen.last_timestamp fuel (w.polls + 1) t2 i2 hwait
        subst hw'
        refine ⟨⟨by show (0 : Nat) < 2 ^ SNOWFLAKE_SEQUENCE_BITS; decide, hdc, hm, ?_, ?_⟩,
          ?_, ?_⟩
        · show t2 ≤ clock i2
          rw [hj2, ← hj3]
          exact hmono j (j + 1) (by omega)
        · show t2 < SNOWFLAKE_EPOCH + 2 ^ SNOWFLAKE_TIMESTAMP_BITS
          rw [← hj3]
          exact (hrange j).2
        · show SNOWFLAKE_EPOCH ≤ t2
          rw [← hj3]
          exact (hrange j).1
        · show id = stateId _
          unfold stateId
          exact hid
    · rw [next_id_same_no_wrap clock fuel w heq hs] at h
      have hw' : w' =
          { gen := { w.gen with sequence := (w.gen.sequence + 1) % 2 ^ SNOWFLAKE_SEQUENCE_BITS },
            polls := w.polls + 1 } := (congrArg Prod.fst h).symm
      have hid : id = snowflake_encode (clock w.polls - SNOWFLAKE_EPOCH)
          w.gen.data_center_id w.gen.machine_id
          ((w.gen.sequence + 1) % 2 ^ SNOWFLAKE_SEQUENCE_BITS) := by
        have h2 := congrArg Prod.snd h
        dsimp only at h2
        exact (Except.ok.inj h2).symm
      subst hw'
      have hmono1 := hmono w.polls (w.polls + 1) (by omega)
      refine ⟨⟨Nat.mod_lt _ (by decide), hdc, hm, ?_, ?_⟩, ?_, ?_⟩
      · show w.gen.last_timestamp ≤ clock (w.polls + 1)
        omega
      · exact hub
      · show SNOWFLAKE_EPOCH ≤ w.gen.last_timestamp
        have := (hrange w.polls).1
        omega
      · show id = stateId _
        unfold stateId
        rw [hid, heq]
  · rw [next_id_fresh clock fuel w hgt] at h
    have hw' : w' =
        { gen := { w.gen with sequence := 0, last_timestamp := clock w.polls },
          polls := w.polls + 1 } := (congrArg Prod.fst h).symm
    have hid : id = snowflake_encode (clock w.polls - SNOWFLAKE_EPOCH)
        w.gen.data_center_id w.gen.machine_id 0 := by
      have h2 := congrArg Prod.snd h
      dsimp only at h2
      exact (Except.ok.inj h2).symm
    subst hw'
    have hmono1 := hmono w.polls (w.polls + 1) (by omega)
    refine ⟨⟨by show (0 : Nat) < 2 ^ SNOWFLAKE_SEQUENCE_BITS; decide, hdc, hm, ?_, ?_⟩,
      ?_, ?_⟩
    · show clock w.polls ≤ clock (w.polls + 1)
      exact hmono1
    · show clock w.polls < SNOWFLAKE_EPOCH + 2 ^ SNOWFLAKE_TIMESTAMP_BITS
      exact (hrange w.polls).2
    · show SNOWFLAKE_EPOCH ≤ clock w.polls
      exact (hrange w.polls).1
    · show id = stateId _
      unfold stateId
      exact hid

/-- A failing call leaves the generator state untouched and preserves the
invariant. -/
theorem step_err (clock : Nat → Nat) (fuel : Nat) (w w' : GenWorld) (e : SnowflakeError)
    (hmono : ClockMono clock) (hinv : GenInv clock w)
    (h : next_id clock fuel w = (w', Except.error e)) :
    w'.gen = w.gen ∧ GenInv clock w' := by
  obtain ⟨hq, hdc, hm, hle, hub⟩ := hinv
  rcases Nat.lt_trichotomy (clock w.polls) w.gen.last_timestamp with hlt | heq | hgt
  · rw [next_id_regress clock fuel w hlt] at h
    have hw' : w' = { w with polls := w.polls + 1 } := (congrArg Prod.fst h).symm
    subst hw'
    have hmono1 := hmono w.polls (w.polls + 1) (by omega)
    exact ⟨rfl, hq, hdc, hm, by show w.gen.last_timestamp ≤ clock (w.polls + 1); omega, hub⟩
  · by_cases hs : (w.gen.sequence + 1) % 2 ^ SNOWFLAKE_SEQUENCE_BITS = 0
    · cases hwait : snwoflake_get_next_millisecond clock w.gen.last_timestamp
          (w.polls + 1) fuel with
      | none =>
        rw [next_id_same_wrap_none clock fuel w heq hs hwait] at h
        have hw' : w' = { w with polls := w.polls + 1 + fuel } := (congrArg Prod.fst h).symm
        subst hw'
        have hmono1 := hmono w.polls (w.polls + 1 + fuel) (by omega)
        exact ⟨rfl, hq, hdc, hm,
          by show w.gen.last_timestamp ≤ clock (w.polls + 1 + fuel); omega, hub⟩
      | some p =>
        obtain ⟨t2, i2⟩ := p
        rw [next_id_same_wrap_some clock fuel w heq hs t2 i2 hwait] at h
        exact absurd (congrArg Prod.snd h) (by simp)
    · rw [next_id_same_no_wrap clock fuel w heq hs] at h
      exact absurd (congrArg Prod.snd h) (by simp)
  · rw [next_id_fresh clock fuel w hgt] at h
    exact absurd (congrArg Prod.snd h) (by simp)

/-- The ID returned by a successful call strictly exceeds the ID encoding
the pre-call state. -/
theorem consecutive_ok (clock : Nat → Nat) (fuel : Nat) (w w' : GenWorld) (id id2 : Nat)
    (hA : AfterOk clock w id)
    (h : next_id clock fuel w = (w', Except.ok id2)) :
    id < id2 := by
  obtain ⟨⟨hq, hdc, hm, hle, hub⟩, hEpsLe, hid⟩ := hA
  have hB12 : (2 : Nat) ^ SNOWFLAKE_SEQUENCE_BITS = 4096 := by decide
  rcases Nat.lt_trichotomy (clock w.polls) w.gen.last_timestamp with hlt | heq | hgt
  · omega
  · by_cases hs : (w.gen.sequence + 1) % 2 ^ SNOWFLAKE_SEQUENCE_BITS = 0
    · cases hwait : snwoflake_get_next_millisecond clock w.gen.last_timestamp
          (w.polls + 1) fuel with
      | none =>
        rw [next_id_same_wrap_none clock fuel w heq hs hwait] at h
        exact absurd (congrArg Prod.snd h) (by simp)
      | some p =>
        obtain ⟨t2, i2⟩ := p
        rw [next_id_same_wrap_some clock fuel w heq hs t2 i2 hwait] at h
        have hid2 : id2 = snowflake_encode (t2 - SNOWFLAKE_EPOCH) w.gen.data_center_id
            w.gen.machine_id 0 := by
          have h2 := congrArg Prod.snd h
          dsimp only at h2
          exact (Except.ok.inj h2).symm
        obtain ⟨hlt2, j, hj1, hj2, hj3⟩ :=
          wait_spec clock w.gen.last_timestamp fuel (w.polls + 1) t2 i2 hwait
        rw [hid, hid2]
        unfold stateId
        exact encode_lt_encode _ _ _ _ _ _ hdc hm hq (by omega)
          (Or.inl (by omega))
    · rw [next_id_same_no_wrap clock fuel w heq hs] at h
      have hid2 : id2 = snowflake_encode (clock w.polls - SNOWFLAKE_EPOCH)
          w.gen.data_center_id w.gen.machine_id
          ((w.gen.sequence + 1) % 2 ^ SNOWFLAKE_SEQUENCE_BITS) := by
        have h2 := congrArg Prod.snd h
        dsimp only at h2
        exact (Except.ok.inj h2).symm
      have hmod : (w.gen.sequence + 1) % 2 ^ SNOWFLAKE_SEQUENCE_BITS
          = w.gen.sequence + 1 := by
        rcases Nat.lt_or_ge (w.gen.sequence + 1) (2 ^ SNOWFLAKE_SEQUENCE_BITS) with hc | hc
        · exact Nat.mod_eq_of_lt hc
        · exact absurd (by omega : w.gen.sequence + 1 = 2 ^ SNOWFLAKE_SEQUENCE_BITS)
            (fun he => hs (by rw [he, Nat.mod_self]))
      rw [hid, hid2, heq, hmod]
      unfold stateId
      exact encode_lt_encode _ _ _ _ _ _ hdc hm hq (by omega)
        (Or.inr ⟨rfl, by omega⟩)
  · rw [next_id_fresh clock fuel w hgt] at h
    have hid2 : id2 = snowflake_encode (clock w.polls - SNOWFLAKE_EPOCH)
        w.gen.data_center_id w.gen.machine_id 0 := by
      have h2 := congrArg Prod.snd h
      dsimp only at h2
      exact (Except.ok.inj h2).symm
    rw [hid, hid2]
    unfold stateId
    exact encode_lt_encode _ _ _ _ _ _ hdc hm hq (by omega) (Or.inl (by omega))

/-- Worlds with equal generator state encode the same state ID. -/
theorem stateId_congr (w w' : GenWorld) (h : w'.gen = w.gen) : stateId w' = stateId w := by
  unfold stateId
  rw [h]

/-- Every success later in a run strictly exceeds the ID of the state the
run starts from. -/
theorem runIds_lower_bound (clock : Nat → Nat) (fuel : Nat)
    (hmono : ClockMono clock) (hrange : ClockInRange clock) :
    ∀ n (w : GenWorld) (id : Nat), AfterOk clock w id →
      ∀ k id2, (runIds clock fuel n w).get? k = some (Except.ok id2) → id < id2 := by
  intro n
  induction n with
  | zero =>
    intro w id _ k id2 h
    rw [show runIds clock fuel 0 w = [] from rfl] at h
    simp at h
  | succ n ih =>
    intro w id hA k id2 hget
    rcases hnx : next_id clock fuel w with ⟨w', r⟩
    rw [runIds_succ, hnx] at hget
    dsimp only at hget
    cases r with
    | ok id1 =>
      have hA' := step_ok clock fuel w w' id1 hmono hrange hA.1 hnx
      have hlt1 := consecutive_ok clock fuel w w' id id1 hA hnx
      cases k with
      | zero =>
        simp only [List.get?_cons_zero] at hget
        have : id1 = id2 := Except.ok.inj (Option.some.inj hget)
        omega
      | succ k =>
        simp only [List.get?_cons_succ] at hget
        have := ih w' id1 hA' k id2 hget
        omega
    | error e =>
      obtain ⟨hgen, hinv'⟩ := step_err clock fuel w w' e hmono hA.1 hnx
      have hA' : AfterOk clock w' id := by
        refine ⟨hinv', ?_, ?_⟩
        · rw [hgen]
          exact hA.2.1
        · rw [stateId_congr w w' hgen]
          exact hA.2.2
      cases k with
      | zero =>
        simp only [List.get?_cons_zero] at hget
        exact absurd (Option.some.inj hget) (by simp)
      | succ k =>
        simp only [List.get?_cons_succ] at hget
        exact ih w' id hA' k id2 hget

/-- Under a monotone, in-range clock, the successful results of a run are
strictly increasing across any pair of positions. -/
theorem runIds_increasing (clock : Nat → Nat) (fuel : Nat)
    (hmono : ClockMono clock) (hrange : ClockInRange clock) :
    ∀ n (w : GenWorld), GenInv clock w →
      ∀ k k' id id', k < k' →
        (runIds clock fuel n w).get? k = some (Except.ok id) →
        (runIds clock fuel n w).get? k' = some (Except.ok id') →
        id < id' := by
  intro n
  induction n with
  | zero =>
    intro w _ k k' id id' _ h1 _
    rw [show runIds clock fuel 0 w = [] from rfl] at h1
    simp at h1
  | succ n ih =>
    intro w hinv k k' id id' hkk h1 h2
    rcases hnx : next_id clock fuel w with ⟨w', r⟩
    rw [runIds_succ, hnx] at h1 h2
    dsimp only at h1 h2
    cases k' with
    | zero => omega
    | succ k' =>
      simp only [List.get?_cons_succ] at h2
      cases k with
      | zero =>
        simp only [List.get?_cons_zero] at h1
        cases r with
        | error e => exact absurd (Option.some.inj h1) (by simp)
        | ok id1 =>
          have hid1 : id1 = id := Except.ok.inj (Option.some.inj h1)
          have hA' := step_ok clock fuel w w' id1 hmono hrange hinv hnx
          have := runIds_lower_bound clock fuel hmono hrange n w' id1 hA' k' id' h2
          omega
      | succ k =>
        simp only [List.get?_cons_succ] at h1
        cases r with
        | ok id1 =>
          have hA' := step_ok clock fuel w w' id1 hmono hrange hinv hnx
          exact ih w' hA'.1 k k' id id' (by omega) h1 h2
        | error e =>
          obtain ⟨_, hinv'⟩ := step_err clock fuel w w' e hmono hinv hnx
          exact ih w' hinv' k k' id id' (by omega) h1 h2

/-- C1: for a single generator with an in-range node identity, under a
non-decreasing injected clock whose readings stay within the encodable
41-bit window, the IDs of any two successful `next_id` calls, taken in call
order, are strictly increasing. -/
theorem C1_monotonic (clock : Nat → Nat) (fuel dc m n : Nat)
    (hmono : ClockMono clock) (hrange : ClockInRange clock)
    (hdc : dc ≤ 31) (hm : m ≤ 31) :
    ∀ k k' id id', k < k' →
      (runIds clock fuel n { gen := snowflake_construct dc m, polls := 0 }).get? k
        = some (Except.ok id) →
      (runIds clock fuel n { gen := snowflake_construct dc m, polls := 0 }).get? k'
        = some (Except.ok id') →
      id < id' := by
  apply runIds_increasing clock fuel hmono hrange n
  refine ⟨?_, ?_, ?_, ?_, ?_⟩
  · show (0 : Nat) < 2 ^ SNOWFLAKE_SEQUENCE_BITS
    decide
  · show dc < 2 ^ SNOWFLAKE_DATA_CENTER_ID_BITS
    have h32 : (2 : Nat) ^ SNOWFLAKE_DATA_CENTER_ID_BITS = 32 := by decide
    omega
  · show m < 2 ^ SNOWFLAKE_MACHINE_ID_BITS
    have h32 : (2 : Nat) ^ SNOWFLAKE_MACHINE_ID_BITS = 32 := by decide
    omega
  · show (0 : Nat) ≤ clock 0
    exact Nat.zero_le _
  · show (0 : Nat) < SNOWFLAKE_EPOCH + 2 ^ SNOWFLAKE_TIMESTAMP_BITS
    decide

/-- C1 witness clock, fixed at `SNOWFLAKE_EPOCH + 100`. -/
def c1clock : Nat → Nat := fun _ => 1577836800100

theorem C1_witness : (419565568 : Nat) < 419565569 :=
  C1_monotonic c1clock 0 1 1 2
    (fun i j _ => Nat.le_refl (c1clock i))
    (fun i => ⟨by show SNOWFLAKE_EPOCH ≤ 1577836800100; decide,
               by show (1577836800100 : Nat) < SNOWFLAKE_EPOCH + 2 ^ SNOWFLAKE_TIMESTAMP_BITS
                  decide⟩)
    (by norm_num) (by norm_num)
    0 1 419565568 419565569 (by norm_num) rfl rfl
